import Mathlib

/-!
Verification of the DJANE-AUDIO real-time music application (src/index.tsx).

The development shallowly embeds the parts of the source that the spec's
claims are about: prompt CRUD and weight handling, the config throttle,
the playback scheduler inside the live-session onmessage callback, the
pause/resume/record state machinery, and the music-config fallback.
Times and audio durations are modelled as exact rationals; opaque browser
objects (audio contexts, media streams, source nodes) are modelled as
abstract numeric handles, with presence/absence as an Option.
-/

/-- Source: interface Prompt (src/index.tsx, lines 33-38).  Weight is a
rational standing for the JS number. -/
structure Prompt where
  promptId : String
  color : String
  text : String
  weight : ℚ
deriving DecidableEq, Repr

/-- Source: interface WeightedPrompt (src/index.tsx, lines 41-44). -/
structure WeightedPrompt where
  text : String
  weight : ℚ
deriving DecidableEq, Repr

/-- Source: type PlaybackState (src/index.tsx, line 51). -/
inductive PlaybackState where
  | stopped
  | playing
  | loading
  | paused
deriving DecidableEq, Repr

/-- Source: type RecordingState (src/index.tsx, lines 52-57). -/
inductive RecordingState where
  | idle
  | initializing
  | recording
  | processing
  | finished
deriving DecidableEq, Repr

/-- Source: function throttle (src/index.tsx, lines 60-70), iterated over a
sequence of invocations of the throttled closure.  Each event is a pair
(now, v): the Date.now timestamp of the invocation and the payload the
wrapped callback would read at that moment.  The closure state is the
mutable lastCall variable (initially 0).  The result is the list of
(timestamp, payload) pairs at which the wrapped callback actually fired.
JS computes now - lastCall as a possibly negative number; with natural
subtraction a negative difference becomes 0, which compares with the
positive delay exactly as the negative number does. -/
def throttleRun {α : Type} (delay : ℕ) (lastCall : ℕ) : List (ℕ × α) → List (ℕ × α)
  | [] => []
  | (now, v) :: rest =>
    if delay ≤ now - lastCall then (now, v) :: throttleRun delay now rest
    else throttleRun delay lastCall rest

/-- The reactive state of the MusicLiveStreamApp component
(src/index.tsx, lines 609-629) together with its private playback fields.
Opaque browser objects are abstract numeric handles; Option models a
nullable field.  ActiveSources (this.sources, a JS Set of source nodes) is
a list of handles. -/
structure AppState where
  prompts : List Prompt
  playbackState : PlaybackState
  recordingState : RecordingState
  recordedAudioUrl : Option String
  inputAudioContext : Option ℕ
  outputAudioContext : Option ℕ
  outputGainNode : Option ℕ
  nextStartTime : ℚ
  sources : List ℕ
  mediaStream : Option ℕ
  scriptProcessor : Option ℕ
  sessionPromise : Option ℕ
  mediaRecorder : Option ℕ
  recordedChunks : List ℕ
deriving DecidableEq, Repr

/-- The observable payload of a LiveServerMessage as the onmessage callback
reads it (src/index.tsx, lines 819-869): an optional inline audio chunk,
abstracted to its decoded duration, and the interrupted flag. -/
structure ServerMessage where
  audioData : Option ℚ
  interrupted : Bool
deriving DecidableEq, Repr

/-- Result of one onmessage invocation: the new component state, the start
time passed to source.start if a source node was created and started, and
the handles on which source.stop was called. -/
structure MsgResult where
  state : AppState
  started : Option ℚ
  stopped : List ℕ
deriving DecidableEq, Repr

/-- Source: the onmessage callback (src/index.tsx, lines 819-871).
Arguments: current state, the message, the value of
outputAudioContext.currentTime at the invocation, and a fresh handle for
the source node the callback may create.  The audio chunk is handled
first (playing branch lines 822-842, paused branch lines 843-858), then
the interrupted flag (lines 862-869), exactly as in the source. -/
def onmessage (s : AppState) (msg : ServerMessage) (now : ℚ) (fresh : ℕ) : MsgResult :=
  let r1 : MsgResult :=
    match msg.audioData with
    | some d =>
      if s.outputAudioContext.isSome ∧ s.outputGainNode.isSome ∧
          s.playbackState ≠ PlaybackState.paused then
        let t := max s.nextStartTime now
        { state := { s with nextStartTime := t + d, sources := fresh :: s.sources },
          started := some t, stopped := [] }
      else if s.playbackState = PlaybackState.paused then
        if s.outputAudioContext.isSome then
          let t := max s.nextStartTime now
          { state := { s with nextStartTime := t + d }, started := none, stopped := [] }
        else { state := s, started := none, stopped := [] }
      else { state := s, started := none, stopped := [] }
    | none => { state := s, started := none, stopped := [] }
  if msg.interrupted then
    { state := { r1.state with sources := [], nextStartTime := 0 },
      started := r1.started, stopped := r1.stopped ++ r1.state.sources }
  else r1

/-- Source: the ended listener registered on each source node
(src/index.tsx, lines 836-838): it removes that source from this.sources. -/
def onEnded (s : AppState) (handle : ℕ) : AppState :=
  { s with sources := s.sources.erase handle }

/-- Source: pausePlayback (src/index.tsx, lines 917-928).  Returns the new
state together with the handles on which source.stop was called.  The
method stops and clears this.sources and flips the state to paused; it
touches nothing else (in particular neither nextStartTime nor the session
or capture objects). -/
def pausePlayback (s : AppState) : AppState × List ℕ :=
  if s.playbackState ≠ PlaybackState.playing then (s, [])
  else ({ s with sources := [], playbackState := PlaybackState.paused }, s.sources)

/-- Source: resumePlayback (src/index.tsx, lines 930-938): from paused it
only flips playbackState back to playing. -/
def resumePlayback (s : AppState) : AppState :=
  if s.playbackState ≠ PlaybackState.paused then s
  else { s with playbackState := PlaybackState.playing }

/-- Source: the recordingDisabled condition of render
(src/index.tsx, lines 1052-1055): the record button is disabled while
initializing or processing, and whenever playback is not playing. -/
def recordingDisabled (s : AppState) : Bool :=
  decide (s.recordingState = RecordingState.initializing) ||
  decide (s.recordingState = RecordingState.processing) ||
  decide (s.playbackState ≠ PlaybackState.playing)

/-- Source: the synchronous part of handleRecordButtonClick
(src/index.tsx, lines 952-1018).  processing returns early; idle starts a
MediaRecorder (handle 0) after checking outputAudioContext; recording
stops it and moves to processing; any other state (initializing,
finished) falls through both branches and does nothing. -/
def handleRecordButtonClick (s : AppState) : AppState :=
  if s.recordingState = RecordingState.processing then s
  else if s.recordingState = RecordingState.idle then
    if s.outputAudioContext.isNone then s
    else { s with recordedChunks := [], recordedAudioUrl := none,
                  mediaRecorder := some 0,
                  recordingState := RecordingState.recording }
  else if s.recordingState = RecordingState.recording then
    { s with recordingState := RecordingState.processing }
  else s

/-- A click on the record button as the browser delivers it: a disabled
button (render, lines 1182-1186, ?disabled=recordingDisabled) receives no
click, so a start request is rejected before the handler runs. -/
def recordClick (s : AppState) : AppState :=
  if recordingDisabled s then s else handleRecordButtonClick s

/-- Source: the currentMusicConfig getter (src/index.tsx, lines 687-696),
returning the weightedPrompts list of the LiveMusicGenerationConfig: the
prompts mapped to {text, weight}, or the single fallback prompt
{text: "ambient pads", weight: 0.7} when that list is empty.  Both the
session-open config (line 890) and every sendPromptUpdate push (line 752)
read this getter. -/
def currentMusicConfig (prompts : List Prompt) : List WeightedPrompt :=
  let weightedPrompts := prompts.map (fun p => WeightedPrompt.mk p.text p.weight)
  if weightedPrompts.length = 0 then [WeightedPrompt.mk "ambient pads" (7 / 10)]
  else weightedPrompts

/-- Source: addPrompt (src/index.tsx, lines 698-713) restricted to the
prompt list: the input text is trimmed and an empty result is rejected;
otherwise a prompt with id prompt-(Date.now()), the trimmed text, weight
1.0 and a colour (a parameter here, random in the source) is appended. -/
def addPrompt (prompts : List Prompt) (nowMs : ℕ) (text : String) (color : String) :
    List Prompt :=
  if text.trim = "" then prompts
  else prompts ++ [Prompt.mk (String.append "prompt-" (toString nowMs)) color text.trim 1]

/-- Source: removePrompt (src/index.tsx, lines 727-730): keeps exactly the
prompts whose promptId differs from the argument. -/
def removePrompt (prompts : List Prompt) (promptId : String) : List Prompt :=
  prompts.filter (fun p => decide (p.promptId ≠ promptId))

/-- Source: updatePromptWeight (src/index.tsx, lines 732-737): stores the
supplied weight on the matching prompt, with no clamping or rounding. -/
def updatePromptWeight (prompts : List Prompt) (promptId : String) (newWeight : ℚ) :
    List Prompt :=
  prompts.map (fun p => if p.promptId = promptId then { p with weight := newWeight } else p)

/-- The toFixed(2)/parseFloat step of the slider, idealised over ℚ:
rounding to the nearest multiple of 1/100. -/
def quant2 (x : ℚ) : ℚ := (round (x * 100) : ℤ) / 100

/-- Source: WeightSlider.updateValueFromPosition (src/index.tsx,
lines 218-228): the drag delta scaled by 2, added to the value at drag
start, clamped into [0, 2], and quantized to 2 decimals; the result is the
value dispatched to updatePromptWeight. -/
def updateValueFromPosition (dragStartValue dragStartPos clientY height : ℚ) : ℚ :=
  let deltaY := dragStartPos - clientY
  let newValue := dragStartValue + deltaY / height * 2
  quant2 (max 0 (min 2 newValue))

/-- One audio-chunk delivery: the output-device time at which the
onmessage callback runs and the decoded duration of the chunk. -/
structure SegEvent where
  now : ℚ
  dur : ℚ
deriving DecidableEq, Repr

/-- A run of the playback scheduler: onmessage applied to each delivered
chunk in order (no interruptions), collecting the (start time, duration)
pair of every source that was actually started.  Fresh handles are not
material to the collected starts, so handle 0 is used throughout. -/
def playRun (s : AppState) : List SegEvent → AppState × List (ℚ × ℚ)
  | [] => (s, [])
  | e :: rest =>
    let r := onmessage s (ServerMessage.mk (some e.dur) false) e.now 0
    let res := playRun r.state rest
    match r.started with
    | some t => (res.1, (t, e.dur) :: res.2)
    | none => res

/-- The scheduling recurrence of the spec, read off the playing branch of
onmessage: each start is max of the clock and the device time, and the
clock advances by the chunk duration past the start. -/
def schedPairs : ℚ → List SegEvent → List (ℚ × ℚ)
  | _, [] => []
  | T, e :: rest => (max T e.now, e.dur) :: schedPairs (max T e.now + e.dur) rest

/-- Delivery at or faster than real time relative to clock T: each chunk
arrives no later than the clock value it is scheduled against. -/
def atOrFasterB : ℚ → List SegEvent → Bool
  | _, [] => true
  | T, e :: rest => decide (e.now ≤ T) && atOrFasterB (max T e.now + e.dur) rest

theorem playRun_eq_schedPairs (evs : List SegEvent) : ∀ s : AppState,
    s.playbackState = PlaybackState.playing →
    s.outputAudioContext.isSome = true → s.outputGainNode.isSome = true →
    (playRun s evs).2 = schedPairs s.nextStartTime evs := by
  induction evs with
  | nil => intro s _ _ _; rfl
  | cons e rest ih =>
    intro s hp ho hg
    have hcond : s.outputAudioContext.isSome ∧ s.outputGainNode.isSome ∧
        s.playbackState ≠ PlaybackState.paused := by
      refine ⟨ho, hg, ?_⟩
      rw [hp]
      intro hcontra
      exact PlaybackState.noConfusion hcontra
    simp only [playRun, onmessage, if_pos hcond, Bool.false_eq_true, if_false]
    rw [ih { s with nextStartTime := max s.nextStartTime e.now + e.dur, sources := 0 :: s.sources } hp ho hg]
    rfl

theorem schedPairs_gapless (evs : List SegEvent) : ∀ T : ℚ,
    List.Chain' (fun p q : ℚ × ℚ => p.1 + p.2 ≤ q.1) (schedPairs T evs) := by
  induction evs with
  | nil => intro T; simp [schedPairs]
  | cons e rest ih =>
    intro T
    rw [schedPairs]
    refine List.chain'_cons'.mpr ⟨?_, ih _⟩
    intro q hq
    cases rest with
    | nil => simp [schedPairs] at hq
    | cons e2 r2 =>
      rw [schedPairs] at hq
      simp only [List.head?_cons, Option.mem_def, Option.some.injEq] at hq
      subst hq
      exact le_max_left _ _

theorem schedPairs_mono (evs : List SegEvent) (hd : ∀ e ∈ evs, 0 ≤ e.dur) :
    ∀ T : ℚ, List.Chain' (· ≤ ·) ((schedPairs T evs).map Prod.fst) := by
  induction evs with
  | nil => intro T; simp [schedPairs]
  | cons e rest ih =>
    intro T
    rw [schedPairs, List.map_cons]
    refine List.chain'_cons'.mpr ⟨?_, ih (fun x hx => hd x (List.mem_cons_of_mem _ hx)) _⟩
    intro q hq
    cases rest with
    | nil => simp [schedPairs] at hq
    | cons e2 r2 =>
      rw [schedPairs, List.map_cons] at hq
      simp only [List.head?_cons, Option.mem_def, Option.some.injEq] at hq
      subst hq
      have h0 : 0 ≤ e.dur := hd e (List.mem_cons_self _ _)
      calc max T e.now ≤ max T e.now + e.dur := le_add_of_nonneg_right h0
        _ ≤ max (max T e.now + e.dur) e2.now := le_max_left _ _

theorem schedPairs_exact (evs : List SegEvent) : ∀ T : ℚ,
    atOrFasterB T evs = true →
    List.Chain' (fun p q : ℚ × ℚ => q.1 = p.1 + p.2) (schedPairs T evs) := by
  induction evs with
  | nil => intro T _; simp [schedPairs]
  | cons e rest ih =>
    intro T hrt
    rw [atOrFasterB, Bool.and_eq_true, decide_eq_true_eq] at hrt
    obtain ⟨hnow, hrest⟩ := hrt
    rw [schedPairs]
    refine List.chain'_cons'.mpr ⟨?_, ih _ hrest⟩
    intro q hq
    cases rest with
    | nil => simp [schedPairs] at hq
    | cons e2 r2 =>
      rw [schedPairs] at hq
      simp only [List.head?_cons, Option.mem_def, Option.some.injEq] at hq
      subst hq
      rw [atOrFasterB, Bool.and_eq_true, decide_eq_true_eq] at hrest
      simp only
      rw [max_eq_left hrest.1]

theorem throttleRun_drop {α : Type} (delay : ℕ) (evs : List (ℕ × α)) :
    ∀ lastCall : ℕ, (∀ p ∈ evs, p.1 - lastCall < delay) →
    throttleRun delay lastCall evs = [] := by
  induction evs with
  | nil => intro lastCall _; rfl
  | cons e rest ih =>
    intro lastCall h
    obtain ⟨now, v⟩ := e
    have h1 : now - lastCall < delay := h (now, v) (List.mem_cons_self _ _)
    rw [throttleRun, if_neg (not_le.mpr h1)]
    exact ih lastCall (fun p hp => h p (List.mem_cons_of_mem _ hp))

/-- A concrete component state (all fields at their initial values) used to
instantiate witnesses and counterexamples. -/
def baseState : AppState :=
  { prompts := [], playbackState := PlaybackState.stopped,
    recordingState := RecordingState.idle, recordedAudioUrl := none,
    inputAudioContext := none, outputAudioContext := none, outputGainNode := none,
    nextStartTime := 0, sources := [], mediaStream := none,
    scriptProcessor := none, sessionPromise := none, mediaRecorder := none,
    recordedChunks := [] }

/-- Helper: in a non-paused state with both output nodes present, the
onmessage chunk branch starts a source at max(clock, now), advances the
clock by the duration past that start, and registers the new source. -/
theorem onmessage_playing_start (s : AppState) (d now : ℚ) (fresh : ℕ)
    (hnp : s.playbackState ≠ PlaybackState.paused)
    (ho : s.outputAudioContext.isSome = true)
    (hg : s.outputGainNode.isSome = true) :
    (onmessage s (ServerMessage.mk (some d) false) now fresh).started =
      some (max s.nextStartTime now) ∧
    (onmessage s (ServerMessage.mk (some d) false) now fresh).state.nextStartTime =
      max s.nextStartTime now + d ∧
    (onmessage s (ServerMessage.mk (some d) false) now fresh).state.sources =
      fresh :: s.sources := by
  have hcond : s.outputAudioContext.isSome ∧ s.outputGainNode.isSome ∧
      s.playbackState ≠ PlaybackState.paused := ⟨ho, hg, hnp⟩
  simp [onmessage, if_pos hcond]

/-- C1: in the playing state, for chunks delivered at or faster than real
time with nonnegative durations, the onmessage scheduler computes each
start as max(clock, device now), advances the clock by the duration, and
the resulting start times are non-decreasing with each start at least the
previous start plus the previous duration (and, at or faster than real
time, exactly equal to it: gapless, no overlap). -/
theorem c1_gapless_scheduler (s : AppState) (evs : List SegEvent)
    (hp : s.playbackState = PlaybackState.playing)
    (ho : s.outputAudioContext.isSome = true)
    (hg : s.outputGainNode.isSome = true)
    (hd : ∀ e ∈ evs, 0 ≤ e.dur)
    (hrt : atOrFasterB s.nextStartTime evs = true) :
    (playRun s evs).2 = schedPairs s.nextStartTime evs ∧
    List.Chain' (fun p q : ℚ × ℚ => p.1 + p.2 ≤ q.1) (playRun s evs).2 ∧
    List.Chain' (· ≤ ·) ((playRun s evs).2.map Prod.fst) ∧
    List.Chain' (fun p q : ℚ × ℚ => q.1 = p.1 + p.2) (playRun s evs).2 := by
  have he := playRun_eq_schedPairs evs s hp ho hg
  refine ⟨he, ?_, ?_, ?_⟩ <;> rw [he]
  · exact schedPairs_gapless evs _
  · exact schedPairs_mono evs hd _
  · exact schedPairs_exact evs _ hrt

/-- Witness for C1: a concrete playing state and two chunks delivered at or
faster than real time; the gapless chain property holds on the run. -/
theorem c1_gapless_scheduler_witness :
    (∀ e ∈ [SegEvent.mk 0 1, SegEvent.mk (1 / 2) 2], 0 ≤ e.dur) ∧
    atOrFasterB
      (AppState.nextStartTime { baseState with playbackState := PlaybackState.playing, outputAudioContext := some 1, outputGainNode := some 2 })
      [SegEvent.mk 0 1, SegEvent.mk (1 / 2) 2] = true ∧
    List.Chain' (fun p q : ℚ × ℚ => p.1 + p.2 ≤ q.1)
      (playRun { baseState with playbackState := PlaybackState.playing, outputAudioContext := some 1, outputGainNode := some 2 }
        [SegEvent.mk 0 1, SegEvent.mk (1 / 2) 2]).2 :=
  ⟨by decide, by norm_num [atOrFasterB, baseState],
    (c1_gapless_scheduler
      { baseState with playbackState := PlaybackState.playing, outputAudioContext := some 1, outputGainNode := some 2 }
      [SegEvent.mk 0 1, SegEvent.mk (1 / 2) 2]
      rfl rfl rfl (by decide) (by norm_num [atOrFasterB, baseState])).2.1⟩

/-- C2 counterexample: five weight changes inside one 100 ms window
(timestamps 1000..1040, payloads 1..5, lastCall initially 0) produce a
single push that fires immediately at time 1000 with the first payload;
no push carries the fifth payload and none fires at the 1100 window
boundary, refuting the trailing-edge claim. -/
theorem c2_throttle_counterexample :
    throttleRun 100 0 [((1000 : ℕ), (1 : ℕ)), (1010, 2), (1020, 3), (1030, 4), (1040, 5)] =
      [(1000, 1)] ∧
    (∀ p ∈ throttleRun 100 0 [((1000 : ℕ), (1 : ℕ)), (1010, 2), (1020, 3), (1030, 4), (1040, 5)],
      p.2 ≠ 5 ∧ p.1 ≠ 1100) := by decide

/-- C2 amended: the throttle is a leading-edge timestamp gate.  If the
first mutation of a burst arrives at least delay ms after the last
accepted call, it fires immediately, carrying the state after that first
mutation, and every further mutation inside the following window is
dropped outright (no deferred push). -/
theorem c2_leading_edge {α : Type} (delay lastCall t0 : ℕ) (v0 : α)
    (rest : List (ℕ × α))
    (hfire : delay ≤ t0 - lastCall)
    (hburst : ∀ p ∈ rest, p.1 - t0 < delay) :
    throttleRun delay lastCall ((t0, v0) :: rest) = [(t0, v0)] := by
  rw [throttleRun, if_pos hfire, throttleRun_drop delay rest t0 hburst]

/-- Witness for C2: the concrete five-mutation burst fires exactly once,
at the first mutation, with the first payload. -/
theorem c2_leading_edge_witness :
    100 ≤ 1000 - 0 ∧
    (∀ p ∈ [((1010 : ℕ), (2 : ℕ)), (1020, 3), (1030, 4), (1040, 5)], p.1 - 1000 < 100) ∧
    throttleRun 100 0 (((1000 : ℕ), (1 : ℕ)) :: [(1010, 2), (1020, 3), (1030, 4), (1040, 5)]) =
      [(1000, 1)] :=
  ⟨by decide, by decide,
    c2_leading_edge 100 0 1000 1 [(1010, 2), (1020, 3), (1030, 4), (1040, 5)]
      (by decide) (by decide)⟩

/-- C3 counterexample: pausing a playing state whose clock is 5 leaves
nextStartTime at 5, not 0; pausePlayback contains no clock reset. -/
theorem c3_pause_counterexample :
    (pausePlayback { baseState with playbackState := PlaybackState.playing, nextStartTime := 5, sources := [1, 2] }).1.nextStartTime = 5 ∧
    (5 : ℚ) ≠ 0 ∧
    (pausePlayback { baseState with playbackState := PlaybackState.playing, nextStartTime := 5, sources := [1, 2] }).1.playbackState = PlaybackState.paused := by
  refine ⟨rfl, by norm_num, rfl⟩

/-- C3 amended: pause() from Playing stops every ActiveSources entry and
clears the set, then transitions to Paused, but leaves the playback clock
(nextStartTime) unchanged rather than resetting it to 0; the session and
capture objects are untouched. -/
theorem c3_pause_behaviour (s : AppState) (h : s.playbackState = PlaybackState.playing) :
    (pausePlayback s).2 = s.sources ∧
    (pausePlayback s).1.sources = [] ∧
    (pausePlayback s).1.playbackState = PlaybackState.paused ∧
    (pausePlayback s).1.nextStartTime = s.nextStartTime ∧
    (pausePlayback s).1.sessionPromise = s.sessionPromise ∧
    (pausePlayback s).1.mediaStream = s.mediaStream ∧
    (pausePlayback s).1.scriptProcessor = s.scriptProcessor := by
  have hcond : ¬ s.playbackState ≠ PlaybackState.playing := by rw [h]; simp
  rw [pausePlayback, if_neg hcond]
  exact ⟨rfl, rfl, rfl, rfl, rfl, rfl, rfl⟩

/-- Witness for C3 amended: a concrete playing state. -/
theorem c3_pause_behaviour_witness :
    AppState.playbackState { baseState with playbackState := PlaybackState.playing, nextStartTime := 7, sources := [3] } = PlaybackState.playing ∧
    (pausePlayback { baseState with playbackState := PlaybackState.playing, nextStartTime := 7, sources := [3] }).2 = [3] ∧
    (pausePlayback { baseState with playbackState := PlaybackState.playing, nextStartTime := 7, sources := [3] }).1.nextStartTime = 7 :=
  ⟨rfl,
    (c3_pause_behaviour { baseState with playbackState := PlaybackState.playing, nextStartTime := 7, sources := [3] } rfl).1,
    (c3_pause_behaviour { baseState with playbackState := PlaybackState.playing, nextStartTime := 7, sources := [3] } rfl).2.2.2.1⟩

/-- Helper: onmessage never changes playbackState, outputAudioContext or
outputGainNode. -/
theorem onmessage_fixed_fields (s : AppState) (msg : ServerMessage) (now : ℚ) (fresh : ℕ) :
    (onmessage s msg now fresh).state.playbackState = s.playbackState ∧
    (onmessage s msg now fresh).state.outputAudioContext = s.outputAudioContext ∧
    (onmessage s msg now fresh).state.outputGainNode = s.outputGainNode := by
  rcases msg with ⟨ad, intr⟩
  cases ad <;> cases intr <;> simp only [onmessage] <;> split_ifs <;> simp

/-- Helper: every source handle present before an interrupted message is in
the stopped list of the result. -/
theorem onmessage_interrupted_stops (s : AppState) (ad : Option ℚ) (now : ℚ) (fresh : ℕ) :
    ∀ x ∈ s.sources, x ∈ (onmessage s (ServerMessage.mk ad true) now fresh).stopped := by
  intro x hx
  cases ad <;> simp only [onmessage] <;> split_ifs <;> simp [hx]

/-- C4: an interrupted message, whatever chunks are queued or in flight,
stops every ActiveSources entry, empties the set and resets the clock to
0; the next chunk then schedules at the current device time.  The final
conjunct states that freshly-from-now behaviour: after the interruption,
a chunk arriving at device time now2 at or after 0 starts exactly at
now2. -/
theorem c4_interruption (s : AppState) (msg : ServerMessage) (now : ℚ) (fresh : ℕ)
    (hint : msg.interrupted = true) :
    (onmessage s msg now fresh).state.sources = [] ∧
    (onmessage s msg now fresh).state.nextStartTime = 0 ∧
    (∀ x ∈ s.sources, x ∈ (onmessage s msg now fresh).stopped) ∧
    (∀ d now2 : ℚ, ∀ fresh2 : ℕ, 0 ≤ now2 →
      s.playbackState ≠ PlaybackState.paused →
      s.outputAudioContext.isSome = true →
      s.outputGainNode.isSome = true →
      (onmessage (onmessage s msg now fresh).state
        (ServerMessage.mk (some d) false) now2 fresh2).started = some now2) := by
  rcases msg with ⟨ad, intr⟩
  have hintr : intr = true := hint
  subst hintr
  refine ⟨?_, ?_, onmessage_interrupted_stops s ad now fresh, ?_⟩
  · cases ad <;> simp only [onmessage] <;> split_ifs <;> rfl
  · cases ad <;> simp only [onmessage] <;> split_ifs <;> rfl
  · intro d now2 fresh2 h0 hnp ho hg
    have hf := onmessage_fixed_fields s (ServerMessage.mk ad true) now fresh
    have hT : (onmessage s (ServerMessage.mk ad true) now fresh).state.nextStartTime = 0 := by
      cases ad <;> simp only [onmessage] <;> split_ifs <;> rfl
    have hstart := onmessage_playing_start
      (onmessage s (ServerMessage.mk ad true) now fresh).state d now2 fresh2
      (by rw [hf.1]; exact hnp) (by rw [hf.2.1]; exact ho) (by rw [hf.2.2]; exact hg)
    rw [hstart.1, hT, max_eq_right h0]

/-- Witness for C4: a concrete interrupted message against a state with two
queued sources; both are stopped, the set is emptied, the clock is zeroed,
and a follow-up chunk at device time 3 starts at 3. -/
theorem c4_interruption_witness :
    (ServerMessage.mk (some (2 : ℚ)) true).interrupted = true ∧
    (onmessage { baseState with playbackState := PlaybackState.playing, outputAudioContext := some 1, outputGainNode := some 2, nextStartTime := 9, sources := [4, 5] } (ServerMessage.mk (some (2 : ℚ)) true) 1 6).state.sources = [] ∧
    (onmessage { baseState with playbackState := PlaybackState.playing, outputAudioContext := some 1, outputGainNode := some 2, nextStartTime := 9, sources := [4, 5] } (ServerMessage.mk (some (2 : ℚ)) true) 1 6).state.nextStartTime = 0 ∧
    (onmessage (onmessage { baseState with playbackState := PlaybackState.playing, outputAudioContext := some 1, outputGainNode := some 2, nextStartTime := 9, sources := [4, 5] } (ServerMessage.mk (some (2 : ℚ)) true) 1 6).state
      (ServerMessage.mk (some (1 : ℚ)) false) 3 7).started = some 3 := by
  have h := c4_interruption
    { baseState with playbackState := PlaybackState.playing, outputAudioContext := some 1, outputGainNode := some 2, nextStartTime := 9, sources := [4, 5] }
    (ServerMessage.mk (some (2 : ℚ)) true) 1 6 rfl
  exact ⟨rfl, h.1, h.2.1,
    h.2.2.2 1 3 7 (by norm_num) (by intro hc; exact PlaybackState.noConfusion hc) rfl rfl⟩

/-- C5: the half of the claim that holds, and the half the code breaks,
evaluated at concrete states.  With playback stopped and recording idle
the record button is disabled, so a start request is rejected and the
state stays idle.  With playback playing and recording finished the
button is enabled (and labelled as a start button in render), yet the
click handler has no branch for finished: the click changes nothing and
no new recording begins, contradicting the claim. -/
theorem c5_record_start_gate :
    recordingDisabled { baseState with playbackState := PlaybackState.stopped, recordingState := RecordingState.idle, outputAudioContext := some 1 } = true ∧
    recordClick { baseState with playbackState := PlaybackState.stopped, recordingState := RecordingState.idle, outputAudioContext := some 1 } =
      { baseState with playbackState := PlaybackState.stopped, recordingState := RecordingState.idle, outputAudioContext := some 1 } ∧
    recordingDisabled { baseState with playbackState := PlaybackState.playing, recordingState := RecordingState.finished, outputAudioContext := some 1, outputGainNode := some 2 } = false ∧
    recordClick { baseState with playbackState := PlaybackState.playing, recordingState := RecordingState.finished, outputAudioContext := some 1, outputGainNode := some 2 } =
      { baseState with playbackState := PlaybackState.playing, recordingState := RecordingState.finished, outputAudioContext := some 1, outputGainNode := some 2 } ∧
    (recordClick { baseState with playbackState := PlaybackState.playing, recordingState := RecordingState.finished, outputAudioContext := some 1, outputGainNode := some 2 }).recordingState ≠ RecordingState.recording := by
  refine ⟨rfl, rfl, rfl, rfl, ?_⟩
  intro hc
  exact RecordingState.noConfusion hc

/-- The weight invariant of the data model: in [0, 2] and an exact
multiple of 1/100 (quantized to 2 decimals). -/
def weightInv (w : ℚ) : Prop := 0 ≤ w ∧ w ≤ 2 ∧ ∃ k : ℤ, w = (k : ℚ) / 100

/-- C6 counterexample: updatePromptWeight stores the supplied weight with
no clamping; supplied 3, it leaves a prompt with weight 3, outside [0,2],
refuting the claim that the reweight operation itself clamps. -/
theorem c6_no_clamp_counterexample :
    (updatePromptWeight [Prompt.mk "prompt-1" "#9900ff" "techno" 1] "prompt-1" 3).map Prompt.weight = [3] ∧
    ¬ ((3 : ℚ) ≤ 2) := by
  constructor
  · rfl
  · norm_num

/-- Helper: rounding a value of [0, 2] to 2 decimals stays in [0, 2] and is
a multiple of 1/100. -/
theorem quant2_mem (x : ℚ) (h0 : 0 ≤ x) (h2 : x ≤ 2) : weightInv (quant2 x) := by
  unfold quant2
  have hk0 : (0 : ℤ) ≤ round (x * 100) := by
    rw [round_eq]
    have h1 : (0 : ℤ) = ⌊(1 : ℚ) / 2⌋ := by norm_num [Int.floor_eq_iff]
    rw [h1]
    apply Int.floor_le_floor
    have : 0 ≤ x * 100 := by positivity
    linarith
  have hk2 : round (x * 100) ≤ (200 : ℤ) := by
    rw [round_eq]
    have h1 : (200 : ℤ) = ⌊(401 : ℚ) / 2⌋ := by norm_num [Int.floor_eq_iff]
    rw [h1]
    apply Int.floor_le_floor
    have : x * 100 ≤ 200 := by linarith
    linarith
  refine ⟨?_, ?_, round (x * 100), rfl⟩
  · apply div_nonneg _ (by norm_num)
    exact_mod_cast hk0
  · rw [div_le_iff₀ (by norm_num : (0:ℚ) < 100)]
    have h200 : ((round (x * 100) : ℤ) : ℚ) ≤ (200 : ℚ) := by exact_mod_cast hk2
    linarith

/-- C6 amended: updatePromptWeight stores the supplied value unchanged (no
clamping there); the clamp into [0,2] and the 2-decimal quantization are
performed upstream, in WeightSlider.updateValueFromPosition, before the
value is dispatched, and prompt creation uses the in-range weight 1.0 —
so every weight set through the slider path or creation satisfies the
invariant, enforced by clamping and never by rejecting an update. -/
theorem c6_weight_invariant (dragStartValue dragStartPos clientY height : ℚ)
    (ps : List Prompt) (promptId text color : String) (nowMs : ℕ)
    (hps : ∀ p ∈ ps, weightInv p.weight) :
    weightInv (updateValueFromPosition dragStartValue dragStartPos clientY height) ∧
    (∀ p ∈ updatePromptWeight ps promptId
        (updateValueFromPosition dragStartValue dragStartPos clientY height),
      weightInv p.weight) ∧
    (∀ p ∈ addPrompt ps nowMs text color, weightInv p.weight) := by
  have hmain : weightInv (updateValueFromPosition dragStartValue dragStartPos clientY height) := by
    rw [updateValueFromPosition]
    apply quant2_mem
    · exact le_max_left 0 _
    · exact max_le (by norm_num) (min_le_left _ _)
  refine ⟨hmain, ?_, ?_⟩
  · intro p hp
    rw [updatePromptWeight, List.mem_map] at hp
    obtain ⟨q, hq, hqe⟩ := hp
    by_cases h : q.promptId = promptId
    · rw [if_pos h] at hqe
      rw [hqe.symm]
      exact hmain
    · rw [if_neg h] at hqe
      rw [hqe.symm]
      exact hps q hq
  · intro p hp
    rw [addPrompt] at hp
    split at hp
    · exact hps p hp
    · rw [List.mem_append] at hp
      rcases hp with hp | hp
      · exact hps p hp
      · rw [List.mem_singleton] at hp
        rw [hp]
        exact ⟨by norm_num, by norm_num, 100, by norm_num⟩

/-- Witness for C6 amended: a concrete drag (half the slider height) on an
empty prompt list produces an in-range quantized weight, and both the
reweight map and an add preserve the invariant. -/
theorem c6_weight_invariant_witness :
    (∀ p ∈ ([] : List Prompt), weightInv p.weight) ∧
    weightInv (updateValueFromPosition 1 0 0 1) ∧
    (∀ p ∈ updatePromptWeight [] "x" (updateValueFromPosition 1 0 0 1), weightInv p.weight) ∧
    (∀ p ∈ addPrompt [] 0 "pad" "#9900ff", weightInv p.weight) := by
  have h := c6_weight_invariant 1 0 0 1 [] "x" "pad" "#9900ff" 0 (by simp)
  exact ⟨by simp, h.1, h.2.1, h.2.2⟩

/-- C7: pause() then resume() from Playing never touches the remote handle
or the capture pipeline: the session promise, media stream, script
processor, both audio contexts and the gain node are the same objects
afterwards, the state is Playing again, and resume() changes nothing but
the playback state (no reconnection, no re-acquisition). -/
theorem c7_pause_resume (s : AppState) (h : s.playbackState = PlaybackState.playing) :
    resumePlayback (pausePlayback s).1 =
      { (pausePlayback s).1 with playbackState := PlaybackState.playing } ∧
    (resumePlayback (pausePlayback s).1).sessionPromise = s.sessionPromise ∧
    (resumePlayback (pausePlayback s).1).mediaStream = s.mediaStream ∧
    (resumePlayback (pausePlayback s).1).scriptProcessor = s.scriptProcessor ∧
    (resumePlayback (pausePlayback s).1).inputAudioContext = s.inputAudioContext ∧
    (resumePlayback (pausePlayback s).1).outputAudioContext = s.outputAudioContext ∧
    (resumePlayback (pausePlayback s).1).outputGainNode = s.outputGainNode ∧
    (resumePlayback (pausePlayback s).1).playbackState = PlaybackState.playing := by
  have hp : ¬ s.playbackState ≠ PlaybackState.playing := by rw [h]; simp
  have h1 : (pausePlayback s).1 =
      { s with sources := [], playbackState := PlaybackState.paused } := by
    rw [pausePlayback, if_neg hp]
  have h2 : ¬ AppState.playbackState
      { s with sources := [], playbackState := PlaybackState.paused } ≠ PlaybackState.paused := by
    simp
  rw [h1, resumePlayback, if_neg h2]
  exact ⟨rfl, rfl, rfl, rfl, rfl, rfl, rfl, rfl⟩

/-- Witness for C7: a concrete playing state with live handles keeps all of
them across pause and resume. -/
theorem c7_pause_resume_witness :
    AppState.playbackState { baseState with playbackState := PlaybackState.playing, sessionPromise := some 8, mediaStream := some 9, scriptProcessor := some 10, inputAudioContext := some 11, outputAudioContext := some 12, outputGainNode := some 13 } = PlaybackState.playing ∧
    (resumePlayback (pausePlayback { baseState with playbackState := PlaybackState.playing, sessionPromise := some 8, mediaStream := some 9, scriptProcessor := some 10, inputAudioContext := some 11, outputAudioContext := some 12, outputGainNode := some 13 }).1).sessionPromise = some 8 ∧
    (resumePlayback (pausePlayback { baseState with playbackState := PlaybackState.playing, sessionPromise := some 8, mediaStream := some 9, scriptProcessor := some 10, inputAudioContext := some 11, outputAudioContext := some 12, outputGainNode := some 13 }).1).mediaStream = some 9 ∧
    (resumePlayback (pausePlayback { baseState with playbackState := PlaybackState.playing, sessionPromise := some 8, mediaStream := some 9, scriptProcessor := some 10, inputAudioContext := some 11, outputAudioContext := some 12, outputGainNode := some 13 }).1).playbackState = PlaybackState.playing :=
  ⟨rfl,
    (c7_pause_resume { baseState with playbackState := PlaybackState.playing, sessionPromise := some 8, mediaStream := some 9, scriptProcessor := some 10, inputAudioContext := some 11, outputAudioContext := some 12, outputGainNode := some 13 } rfl).2.1,
    (c7_pause_resume { baseState with playbackState := PlaybackState.playing, sessionPromise := some 8, mediaStream := some 9, scriptProcessor := some 10, inputAudioContext := some 11, outputAudioContext := some 12, outputGainNode := some 13 } rfl).2.2.1,
    (c7_pause_resume { baseState with playbackState := PlaybackState.playing, sessionPromise := some 8, mediaStream := some 9, scriptProcessor := some 10, inputAudioContext := some 11, outputAudioContext := some 12, outputGainNode := some 13 } rfl).2.2.2.2.2.2.2⟩

/-- C8: a chunk arriving while paused (with the output context live) is
decoded into clock bookkeeping only: the clock is clamped to max(T, now)
and advanced by the duration, but no source is started, none is stopped,
ActiveSources is untouched and the state stays paused. -/
theorem c8_paused_bookkeeping (s : AppState) (d now : ℚ) (fresh : ℕ)
    (hp : s.playbackState = PlaybackState.paused)
    (ho : s.outputAudioContext.isSome = true) :
    (onmessage s (ServerMessage.mk (some d) false) now fresh).started = none ∧
    (onmessage s (ServerMessage.mk (some d) false) now fresh).state.sources = s.sources ∧
    (onmessage s (ServerMessage.mk (some d) false) now fresh).stopped = [] ∧
    (onmessage s (ServerMessage.mk (some d) false) now fresh).state.nextStartTime =
      max s.nextStartTime now + d ∧
    (onmessage s (ServerMessage.mk (some d) false) now fresh).state.playbackState =
      PlaybackState.paused := by
  have hc1 : ¬ (s.outputAudioContext.isSome ∧ s.outputGainNode.isSome ∧
      s.playbackState ≠ PlaybackState.paused) := by
    rw [hp]; simp
  simp [onmessage, hc1, hp, ho]

/-- Witness for C8: a concrete paused state; the chunk of duration 2 at
device time 6 only moves the clock from 4 to 8 and starts nothing. -/
theorem c8_paused_bookkeeping_witness :
    AppState.playbackState { baseState with playbackState := PlaybackState.paused, outputAudioContext := some 1, nextStartTime := 4, sources := [7] } = PlaybackState.paused ∧
    Option.isSome (AppState.outputAudioContext { baseState with playbackState := PlaybackState.paused, outputAudioContext := some 1, nextStartTime := 4, sources := [7] }) = true ∧
    (onmessage { baseState with playbackState := PlaybackState.paused, outputAudioContext := some 1, nextStartTime := 4, sources := [7] } (ServerMessage.mk (some 2) false) 6 8).started = none ∧
    (onmessage { baseState with playbackState := PlaybackState.paused, outputAudioContext := some 1, nextStartTime := 4, sources := [7] } (ServerMessage.mk (some 2) false) 6 8).state.sources = [7] ∧
    (onmessage { baseState with playbackState := PlaybackState.paused, outputAudioContext := some 1, nextStartTime := 4, sources := [7] } (ServerMessage.mk (some 2) false) 6 8).state.nextStartTime = max 4 6 + 2 :=
  ⟨rfl, rfl,
    (c8_paused_bookkeeping { baseState with playbackState := PlaybackState.paused, outputAudioContext := some 1, nextStartTime := 4, sources := [7] } 2 6 8 rfl rfl).1,
    (c8_paused_bookkeeping { baseState with playbackState := PlaybackState.paused, outputAudioContext := some 1, nextStartTime := 4, sources := [7] } 2 6 8 rfl rfl).2.1,
    (c8_paused_bookkeeping { baseState with playbackState := PlaybackState.paused, outputAudioContext := some 1, nextStartTime := 4, sources := [7] } 2 6 8 rfl rfl).2.2.2.1⟩

/-- C9: the currentMusicConfig getter, read both at session open and on
every config push, yields exactly the single fallback prompt
(text "ambient pads", weight 0.7) when the prompt list is empty, and the
plain text/weight projection of the list, with no fallback added, when it
is non-empty. -/
theorem c9_fallback_config (ps : List Prompt) :
    (ps = [] → currentMusicConfig ps = [WeightedPrompt.mk "ambient pads" (7 / 10)]) ∧
    (ps ≠ [] → currentMusicConfig ps =
      ps.map (fun p => WeightedPrompt.mk p.text p.weight)) := by
  constructor
  · intro h
    rw [h]
    rfl
  · intro h
    have hlen : ¬ (ps.map (fun p => WeightedPrompt.mk p.text p.weight)).length = 0 := by
      simp [List.length_eq_zero, h]
    simp only [currentMusicConfig, if_neg hlen]

/-- Witness for C9: the empty list yields the fallback, a one-prompt list
yields its own text/weight pair and no fallback. -/
theorem c9_fallback_config_witness :
    currentMusicConfig [] = [WeightedPrompt.mk "ambient pads" (7 / 10)] ∧
    currentMusicConfig [Prompt.mk "prompt-1" "#2af6de" "lush strings" (3 / 2)] =
      [WeightedPrompt.mk "lush strings" (3 / 2)] :=
  ⟨(c9_fallback_config []).1 rfl,
    (c9_fallback_config [Prompt.mk "prompt-1" "#2af6de" "lush strings" (3 / 2)]).2
      (by simp)⟩

/-- Helper: removing the id of a just-added prompt removes exactly that
prompt again, whether or not the add was rejected for empty text. -/
theorem removePrompt_addPrompt_self (ps : List Prompt) (nowMs : ℕ) (text color : String) :
    removePrompt (addPrompt ps nowMs text color) (String.append "prompt-" (toString nowMs)) =
      removePrompt ps (String.append "prompt-" (toString nowMs)) := by
  rw [addPrompt]
  split
  · rfl
  · rw [removePrompt, removePrompt, List.filter_append]
    simp

/-- C10: removePrompt keeps exactly the prompts whose id differs from the
argument, in their original relative order (the result is a sublist of
the input containing every non-matching prompt and no matching one); and
because addPrompt builds the id from Date.now() alone, two prompts added
in the same millisecond share one id, and a single removePrompt call with
that id removes both of them. -/
theorem c10_remove_prompt (ps : List Prompt) (promptId : String) (nowMs : ℕ)
    (t1 t2 c1 c2 : String) :
    (∀ p ∈ removePrompt ps promptId, p.promptId ≠ promptId) ∧
    (removePrompt ps promptId).Sublist ps ∧
    (∀ p ∈ ps, p.promptId ≠ promptId → p ∈ removePrompt ps promptId) ∧
    removePrompt (addPrompt (addPrompt ps nowMs t1 c1) nowMs t2 c2)
        (String.append "prompt-" (toString nowMs)) =
      removePrompt ps (String.append "prompt-" (toString nowMs)) := by
  refine ⟨?_, ?_, ?_, ?_⟩
  · intro p hp
    rw [removePrompt, List.mem_filter] at hp
    exact of_decide_eq_true hp.2
  · exact List.filter_sublist ps
  · intro p hp hne
    rw [removePrompt, List.mem_filter]
    exact ⟨hp, decide_eq_true hne⟩
  · rw [removePrompt_addPrompt_self, removePrompt_addPrompt_self]

/-- Witness for C10: two prompts added at the same millisecond 42 to a
one-prompt list; one removePrompt call with the shared id removes both,
and the remaining prompt survives with its id intact. -/
theorem c10_remove_prompt_witness :
    (∀ p ∈ removePrompt [Prompt.mk "prompt-7" "#ffdd28" "funk" 1] "prompt-42",
      p.promptId ≠ "prompt-42") ∧
    removePrompt
        (addPrompt (addPrompt [Prompt.mk "prompt-7" "#ffdd28" "funk" 1] 42 "dub" "#9900ff")
          42 "techno" "#5200ff")
        (String.append "prompt-" (toString 42)) =
      removePrompt [Prompt.mk "prompt-7" "#ffdd28" "funk" 1]
        (String.append "prompt-" (toString 42)) :=
  ⟨(c10_remove_prompt [Prompt.mk "prompt-7" "#ffdd28" "funk" 1] "prompt-42" 42
      "dub" "techno" "#9900ff" "#5200ff").1,
    (c10_remove_prompt [Prompt.mk "prompt-7" "#ffdd28" "funk" 1] "prompt-42" 42
      "dub" "techno" "#9900ff" "#5200ff").2.2.2⟩
